import Mathlib

/-!
Verification development for the Pushover Listener client
(`custom_components/pushover_listener/pushover_listener.py`, `api.py`, and the
legacy standalone `pushover_listener.py`).

The Python code is shallowly embedded: strings are modelled as `List Char`
wrapped in `String`, Python dicts as association lists with last-write-wins
lookup, fallible Python code as `Except`, and the network/event side effects of
`fetch_and_fire`, `download_and_discard_old_messages` and the reconnect loop as
explicit traces of actions over the already-fetched data.
-/

set_option autoImplicit false

namespace PushoverListener

/-- Python `str.strip()` whitespace set (space, tab, LF, CR, VT, FF). -/
def pyIsSpace (c : Char) : Bool :=
  c = ' ' || c = '\t' || c = '\n' || c = '\r' || c = '\x0b' || c = '\x0c'

/-- Python `s.strip()`: drop whitespace from both ends. -/
def pyStrip (l : List Char) : List Char :=
  ((l.dropWhile pyIsSpace).reverse.dropWhile pyIsSpace).reverse

/-- Python `s.rstrip("&")`: drop trailing `&` characters. -/
def pyRstripAmp (l : List Char) : List Char :=
  (l.reverse.dropWhile (fun c => c = '&')).reverse

/-- Python `s.split(sep)` for a one-character separator (keeps empty pieces). -/
def splitChar (sep : Char) : List Char → List (List Char)
  | [] => [[]]
  | c :: cs =>
    match splitChar sep cs with
    | [] => [[c]]
    | l :: ls => if c = sep then [] :: l :: ls else (c :: l) :: ls

/-- Python `s.split(sep, 1)` preceded by the `sep in s` membership test:
`none` when the separator does not occur, otherwise the parts around the
first occurrence. -/
def splitFirst (sep : Char) : List Char → Option (List Char × List Char)
  | [] => none
  | c :: cs =>
    if c = sep then some ([], cs)
    else
      match splitFirst sep cs with
      | none => none
      | some (a, b) => some (c :: a, b)

/-- A Python dict of strings, as an association list.  Writes are prepended,
so the first match found by `dget` is the most recent write. -/
abbrev Dict := List (String × String)

/-- Python `d[k] = v`. -/
def dset (d : Dict) (k v : String) : Dict :=
  (k, v) :: d

/-- Python `d.get(k)`: the most recent value written for `k`. -/
def dget (d : Dict) (k : String) : Option String :=
  match d with
  | [] => none
  | (k2, v) :: rest => if k2 = k then some v else dget rest k

/-- One iteration of the body-parsing loop in `_enrich_message_payload` /
`unpack_json_payload`: `if "=" in line: key, value = line.split("=", 1);
key = key.strip().rstrip("&"); value = value.strip().rstrip("&");
if key: enriched[key] = value`. -/
def lineToken (line : List Char) : Option (String × String) :=
  match splitFirst '=' line with
  | none => none
  | some (k0, v0) =>
    let k := pyRstripAmp (pyStrip k0)
    let v := pyRstripAmp (pyStrip v0)
    if k = [] then none else some (String.mk k, String.mk v)

/-- Apply one body line to the accumulated dict. -/
def applyLine (acc : Dict) (line : List Char) : Dict :=
  match lineToken line with
  | none => acc
  | some (k, v) => dset acc k v

/-- First-defined choice on optional lookup results. -/
def dfirst (a b : Option String) : Option String :=
  match a with
  | some v => some v
  | none => b

/-- The `key=value` tokens a body text contributes, in line order. -/
def parseTokens (body : List Char) : List (String × String) :=
  (splitChar '\n' body).filterMap lineToken

/-- `PushoverClient._enrich_message_payload` (custom_components version):
copy the provider record, add `user_email` and `device_name`, then merge
`key=value` tokens parsed line-by-line from the `message` body. -/
def _enrich_message_payload (email device_name : String) (msg : Dict) : Dict :=
  let enriched := msg
  let enriched := dset enriched "user_email" email
  let enriched := dset enriched "device_name" device_name
  match dget msg "message" with
  | none => enriched
  | some body => (splitChar '\n' body.data).foldl applyLine enriched

/-- `PushoverClient.unpack_json_payload` (legacy standalone version):
same body-token merge, without the session-identifying fields. -/
def unpack_json_payload (msg : Dict) : Dict :=
  match dget msg "message" with
  | none => msg
  | some body => (splitChar '\n' body.data).foldl applyLine msg

/-- A fetched message: its id already parsed as an integer (`int(m["id"])`,
per the interface ids are strings or numerics parsed as integers) together
with its raw provider fields. -/
structure Msg where
  id : Int
  fields : Dict
deriving DecidableEq

/-- Observable actions of the message channel: firing one enriched event on
the event sink, or acknowledging (deleting) messages up to a max id via
`delete_messages_up_to`. -/
inductive DeliveryAct where
  | emit (payload : Dict)
  | ack (max_id : Int)
deriving DecidableEq

/-- Python `max(...)` over a sequence of integers: raises `ValueError` on an
empty sequence, otherwise the maximum. -/
def pyMax : List Int → Except Unit Int
  | [] => Except.error ()
  | x :: xs => Except.ok (xs.foldl max x)

/-- Is this action an emit? -/
def isEmit : DeliveryAct → Bool
  | DeliveryAct.emit _ => true
  | DeliveryAct.ack _ => false

/-- Number of events fired on the sink in a trace. -/
def countEmits (t : List DeliveryAct) : Nat :=
  t.countP isEmit

/-- The events fired by the `for msg in messages` loop of `fetch_and_fire`:
one enriched event per fetched message, in batch order. -/
def emitTrace (email device_name : String) (messages : List Msg) : List DeliveryAct :=
  messages.map
    (fun m => DeliveryAct.emit (_enrich_message_payload email device_name m.fields))

/-- `PushoverClient.fetch_and_fire`, as the trace of actions it performs on a
successfully fetched batch: fire one enriched event per message in order,
then — only if the batch is non-empty — acknowledge up to
`max(int(m["id"]) for m in messages)`. -/
def fetch_and_fire (email device_name : String) (messages : List Msg) :
    Except Unit (List DeliveryAct) :=
  let emits := emitTrace email device_name messages
  match messages with
  | [] => Except.ok emits
  | _ :: _ =>
    match pyMax (messages.map Msg.id) with
    | Except.error e => Except.error e
    | Except.ok mx => Except.ok (emits ++ [DeliveryAct.ack mx])

/-- `PushoverClient.download_and_discard_old_messages`, as the trace of actions
it performs on the fetched backlog: if empty, return with no action; otherwise
acknowledge up to the maximum fetched id without emitting anything. -/
def download_and_discard_old_messages (messages : List Msg) :
    Except Unit (List DeliveryAct) :=
  match messages with
  | [] => Except.ok []
  | _ :: _ =>
    match pyMax (messages.map Msg.id) with
    | Except.error e => Except.error e
    | Except.ok mx => Except.ok [DeliveryAct.ack mx]

/-- `INITIAL_RECONNECT_DELAY = 10` (seconds). -/
def INITIAL_RECONNECT_DELAY : Nat := 10

/-- `MAX_RECONNECT_DELAY = 300` (seconds). -/
def MAX_RECONNECT_DELAY : Nat := 300

/-- `RECONNECT_FACTOR = 2`. -/
def RECONNECT_FACTOR : Nat := 2

/-- What one iteration of the `while self._running` loop in
`PushoverClient.listen` observed about the connection. -/
inductive ConnOutcome where
  | connectFailed
  | loggedInThenDropped
deriving DecidableEq

/-- One iteration of the reconnect loop, given the delay carried into it:
if the connection opened and the login line was sent, `_reconnect_delay` is
reset to `INITIAL_RECONNECT_DELAY` before the drop; then the loop sleeps the
current delay and doubles it capped at `MAX_RECONNECT_DELAY`.  Returns
(observed backoff sleep, delay carried to the next iteration). -/
def listen_iteration (delay : Nat) (o : ConnOutcome) : Nat × Nat :=
  let d :=
    match o with
    | ConnOutcome.connectFailed => delay
    | ConnOutcome.loggedInThenDropped => INITIAL_RECONNECT_DELAY
  (d, min (d * RECONNECT_FACTOR) MAX_RECONNECT_DELAY)

/-- The backoff sleeps observed across a run of loop iterations. -/
def listen_run (delay : Nat) : List ConnOutcome → List Nat
  | [] => []
  | o :: os => (listen_iteration delay o).1 :: listen_run (listen_iteration delay o).2 os

/-- The `_reconnect_delay` value held after a run of loop iterations. -/
def listen_final (delay : Nat) : List ConnOutcome → Nat
  | [] => delay
  | o :: os => listen_final (listen_iteration delay o).2 os

/-- JSON body of the login response: a `status` field and an optional
`secret` field. -/
structure LoginBody where
  status : Int
  secret : Option String
deriving DecidableEq

/-- Outcome of the login POST as seen by `async_validate_credentials`:
a transport-level `ClientError`, or an HTTP response (`httpOk = false` makes
`resp.raise_for_status()` raise a `ClientError`) carrying a JSON body. -/
inductive LoginHttp where
  | clientError
  | response (httpOk : Bool) (body : LoginBody)
deriving DecidableEq

/-- Result of `async_validate_credentials`: the `InvalidAuthError` raise, a
`KeyError` from `data["secret"]` on a success-status body lacking the field,
or the returned secret. -/
inductive AuthResult where
  | invalidAuth
  | keyError
  | token (secret : String)
deriving DecidableEq

/-- `async_validate_credentials` (api.py): `raise_for_status()`, then raise
`InvalidAuthError` when `data["status"] != 1`, else return `data["secret"]`;
any `ClientError` (transport failure or HTTP error status) is caught and
re-raised as `InvalidAuthError`. -/
def async_validate_credentials : LoginHttp → AuthResult
  | LoginHttp.clientError => AuthResult.invalidAuth
  | LoginHttp.response false _ => AuthResult.invalidAuth
  | LoginHttp.response true body =>
    if body.status ≠ 1 then AuthResult.invalidAuth
    else
      match body.secret with
      | some s => AuthResult.token s
      | none => AuthResult.keyError

/-- What the storage substrate does when the cached device id is loaded:
no record exists (the Store helper returns `None`; the legacy `open()` raises
`FileNotFoundError`), the record is corrupt (the Store helper raises on
invalid JSON; the legacy `json.load` raises), or a stored JSON object. -/
inductive StoreLoadOutcome where
  | missing
  | corrupt
  | stored (d : Dict)
deriving DecidableEq

/-- `load_cached_device_id` (legacy standalone version): the whole read is
wrapped in `try: ... except Exception: return None`, so every substrate
failure is reported as `None`. -/
def load_cached_device_id_legacy : StoreLoadOutcome → Option String
  | StoreLoadOutcome.missing => none
  | StoreLoadOutcome.corrupt => none
  | StoreLoadOutcome.stored d => dget d "device_id"

/-- `load_cached_device_id` (custom_components version):
`data = await self._store.async_load(); return data.get("device_id") if data
else None` — no exception handler, so a raising substrate load propagates. -/
def load_cached_device_id : StoreLoadOutcome → Except Unit (Option String)
  | StoreLoadOutcome.missing => Except.ok none
  | StoreLoadOutcome.corrupt => Except.error ()
  | StoreLoadOutcome.stored d =>
    Except.ok (if d = [] then none else dget d "device_id")

/-- State threaded through the identity part of `PushoverClient.start`:
the persisted `device_id` record, how many times `register_device` has been
invoked, and `self.device_id`. -/
structure StartState where
  storage : Option String
  regCalls : Nat
  device_id : Option String
deriving DecidableEq

/-- Python truthiness of the loaded id: `not self.device_id` is true for
`None` and for the empty string. -/
def pyFalsy : Option String → Bool
  | none => true
  | some s => s == ""

/-- The identity steps of `PushoverClient.start` (storage working normally):
`self.device_id = await self.load_cached_device_id(); if not self.device_id:
await self.register_device(); await self.save_device_id(self.device_id)`.
`regId` is the id the provider would assign if registration runs. -/
def start_identity (regId : String) (s : StartState) : StartState :=
  let loaded := s.storage
  if pyFalsy loaded then
    ⟨some regId, s.regCalls + 1, some regId⟩
  else
    ⟨s.storage, s.regCalls, loaded⟩

/-- A Python value as compared by `msg.data in (...)`: a bytes object or a
str object.  In Python, `bytes == str` is always `False`; derived decidable
equality on this type gives exactly that. -/
inductive PyData where
  | bytes (s : String)
  | str (s : String)
deriving DecidableEq

/-- What the read loop does with one received binary frame. -/
inductive FrameAction where
  | fetchAndFire
  | keepAlive
  | reconnect
  | ignored
deriving DecidableEq

/-- The binary-frame dispatch of `PushoverClient.listen` (custom_components
version): `if msg.data == b"!" ... elif msg.data == b"#" ... elif msg.data in
(b"R", b"E", "A"): break` — note the third member of the tuple is the *str*
`"A"`, not the bytes `b"A"`.  A frame matching no branch falls through and
the loop continues. -/
def handle_binary_frame (d : PyData) : FrameAction :=
  if d = PyData.bytes "!" then FrameAction.fetchAndFire
  else if d = PyData.bytes "#" then FrameAction.keepAlive
  else if d = PyData.bytes "R" ∨ d = PyData.bytes "E" ∨ d = PyData.str "A" then
    FrameAction.reconnect
  else FrameAction.ignored

/-- The binary-frame dispatch of the legacy standalone `listen`:
`elif msg.data in (b"R", b"E", b"A"): break` — all three members bytes. -/
def handle_binary_frame_legacy (d : PyData) : FrameAction :=
  if d = PyData.bytes "!" then FrameAction.fetchAndFire
  else if d = PyData.bytes "#" then FrameAction.keepAlive
  else if d = PyData.bytes "R" ∨ d = PyData.bytes "E" ∨ d = PyData.bytes "A" then
    FrameAction.reconnect
  else FrameAction.ignored

/-! Helper lemmas about the dict model and the body-token merge. -/

theorem dget_dset (d : Dict) (k v q : String) :
    dget (dset d k v) q = if k = q then some v else dget d q := rfl

theorem dfirst_assoc (a b c : Option String) :
    dfirst (dfirst a b) c = dfirst a (dfirst b c) := by
  cases a <;> rfl

theorem dget_append (d1 d2 : Dict) (k : String) :
    dget (d1 ++ d2) k = dfirst (dget d1 k) (dget d2 k) := by
  induction d1 with
  | nil => rfl
  | cons p rest ih =>
    obtain ⟨k2, v⟩ := p
    by_cases hk : k2 = k
    · simp [dget, dfirst, hk]
    · simp [dget, hk, ih]

theorem dget_foldl_applyLine (lines : List (List Char)) (acc : Dict) (k : String) :
    dget (lines.foldl applyLine acc) k =
      dfirst (dget (lines.filterMap lineToken).reverse k) (dget acc k) := by
  induction lines generalizing acc with
  | nil => rfl
  | cons line rest ih =>
    rcases hl : lineToken line with _ | ⟨k0, v0⟩
    · have happ : applyLine acc line = acc := by simp [applyLine, hl]
      simp [List.foldl_cons, happ, List.filterMap_cons, hl, ih]
    · have happ : applyLine acc line = dset acc k0 v0 := by simp [applyLine, hl]
      have hrev : ((line :: rest).filterMap lineToken).reverse =
          (rest.filterMap lineToken).reverse ++ [(k0, v0)] := by
        simp [List.filterMap_cons, hl]
      rw [List.foldl_cons, happ, ih, hrev, dget_append, dfirst_assoc]
      have : dget [(k0, v0)] k = if k0 = k then some v0 else none := rfl
      by_cases hk : k0 = k <;> simp [dget, dset, dfirst, hk]

theorem le_foldl_max (xs : List Int) : ∀ x : Int, x ≤ xs.foldl max x := by
  induction xs with
  | nil => intro x; simp
  | cons a l ih =>
    intro x
    exact le_trans (le_max_left x a) (ih (max x a))

theorem foldl_max_ub (xs : List Int) : ∀ x y : Int, y ∈ xs → y ≤ xs.foldl max x := by
  induction xs with
  | nil => intro x y hy; cases hy
  | cons a l ih =>
    intro x y hy
    rcases List.mem_cons.mp hy with h | h
    · subst h
      exact le_trans (le_max_right x y) (le_foldl_max l (max x y))
    · exact ih (max x a) y h

theorem foldl_max_mem (xs : List Int) :
    ∀ x : Int, xs.foldl max x = x ∨ xs.foldl max x ∈ xs := by
  induction xs with
  | nil => intro x; left; rfl
  | cons a l ih =>
    intro x
    rcases ih (max x a) with h | h
    · rcases max_choice x a with hm | hm
      · left; rw [List.foldl_cons, h, hm]
      · right; rw [List.foldl_cons, h, hm]; exact List.mem_cons_self a l
    · right; exact List.mem_cons_of_mem a h

theorem countEmits_emitTrace (email device_name : String) (messages : List Msg) :
    countEmits (emitTrace email device_name messages) = messages.length := by
  induction messages with
  | nil => rfl
  | cons m ms ih =>
    simp [emitTrace, countEmits, isEmit, List.countP_cons]

theorem listen_run_bounds : ∀ (os : List ConnOutcome) (d : Nat),
    INITIAL_RECONNECT_DELAY ≤ d → d ≤ MAX_RECONNECT_DELAY →
    ∀ s ∈ listen_run d os,
      INITIAL_RECONNECT_DELAY ≤ s ∧ s ≤ MAX_RECONNECT_DELAY := by
  intro os
  induction os with
  | nil =>
    intro d _ _ s hs
    simp [listen_run] at hs
  | cons o os ih =>
    intro d h1 h2 s hs
    simp only [INITIAL_RECONNECT_DELAY, MAX_RECONNECT_DELAY] at h1 h2 ⊢
    cases o with
    | connectFailed =>
      simp only [listen_run, listen_iteration, RECONNECT_FACTOR,
        INITIAL_RECONNECT_DELAY, MAX_RECONNECT_DELAY, List.mem_cons] at hs
      rcases hs with h | h
      · omega
      · have := ih (min (d * 2) 300)
          (by simp only [INITIAL_RECONNECT_DELAY]; omega)
          (by simp only [MAX_RECONNECT_DELAY]; omega) s
          (by simpa [listen_iteration, RECONNECT_FACTOR, INITIAL_RECONNECT_DELAY,
            MAX_RECONNECT_DELAY] using h)
        simpa [INITIAL_RECONNECT_DELAY, MAX_RECONNECT_DELAY] using this
    | loggedInThenDropped =>
      simp only [listen_run, listen_iteration, RECONNECT_FACTOR,
        INITIAL_RECONNECT_DELAY, MAX_RECONNECT_DELAY, List.mem_cons] at hs
      rcases hs with h | h
      · omega
      · have := ih (min (10 * 2) 300)
          (by simp only [INITIAL_RECONNECT_DELAY]; omega)
          (by simp only [MAX_RECONNECT_DELAY]; omega) s
          (by simpa [listen_iteration, RECONNECT_FACTOR, INITIAL_RECONNECT_DELAY,
            MAX_RECONNECT_DELAY] using h)
        simpa [INITIAL_RECONNECT_DELAY, MAX_RECONNECT_DELAY] using this

theorem listen_final_bounds : ∀ (os : List ConnOutcome) (d : Nat),
    INITIAL_RECONNECT_DELAY ≤ d → d ≤ MAX_RECONNECT_DELAY →
    INITIAL_RECONNECT_DELAY ≤ listen_final d os
      ∧ listen_final d os ≤ MAX_RECONNECT_DELAY := by
  intro os
  induction os with
  | nil =>
    intro d h1 h2
    simpa [listen_final] using ⟨h1, h2⟩
  | cons o os ih =>
    intro d h1 h2
    simp only [INITIAL_RECONNECT_DELAY, MAX_RECONNECT_DELAY] at h1 h2
    cases o with
    | connectFailed =>
      have := ih (min (d * 2) 300)
        (by simp only [INITIAL_RECONNECT_DELAY]; omega)
        (by simp only [MAX_RECONNECT_DELAY]; omega)
      simpa [listen_final, listen_iteration, RECONNECT_FACTOR,
        MAX_RECONNECT_DELAY] using this
    | loggedInThenDropped =>
      have := ih (min (10 * 2) 300)
        (by simp only [INITIAL_RECONNECT_DELAY]; omega)
        (by simp only [MAX_RECONNECT_DELAY]; omega)
      simpa [listen_final, listen_iteration, RECONNECT_FACTOR,
        INITIAL_RECONNECT_DELAY, MAX_RECONNECT_DELAY] using this

theorem listen_run_failures_monotone : ∀ (n : Nat) (d : Nat),
    d ≤ MAX_RECONNECT_DELAY →
    List.Chain' (fun a b => a ≤ b)
      (listen_run d (List.replicate n ConnOutcome.connectFailed)) := by
  intro n
  induction n with
  | zero =>
    intro d _
    simp [listen_run]
  | succ m ih =>
    intro d hd
    simp only [MAX_RECONNECT_DELAY] at hd
    rw [List.replicate_succ]
    simp only [listen_run, listen_iteration, RECONNECT_FACTOR, MAX_RECONNECT_DELAY]
    rw [List.chain'_cons']
    constructor
    · intro y hy
      cases m with
      | zero => simp [listen_run] at hy
      | succ m2 =>
        rw [List.replicate_succ] at hy
        simp only [listen_run, listen_iteration, List.head?_cons,
          Option.mem_def, Option.some.injEq] at hy
        omega
    · exact ih (min (d * 2) 300) (by simp only [MAX_RECONNECT_DELAY]; omega)

/-! Claim theorems. -/

/-- C1: on every successfully fetched non-empty batch, `fetch_and_fire` fires
exactly one enriched event per message (N events for N messages), all before
the single acknowledge action, and the acknowledge's max-id argument is the
maximum of the batch's parsed ids. -/
theorem fetch_and_fire_spec (email device_name : String) (messages : List Msg)
    (h : messages ≠ []) :
    ∃ mx : Int,
      fetch_and_fire email device_name messages =
        Except.ok (emitTrace email device_name messages ++ [DeliveryAct.ack mx])
      ∧ countEmits (emitTrace email device_name messages ++ [DeliveryAct.ack mx])
          = messages.length
      ∧ mx ∈ messages.map Msg.id
      ∧ ∀ i ∈ messages.map Msg.id, i ≤ mx := by
  cases messages with
  | nil => exact absurd rfl h
  | cons m ms =>
    refine ⟨(ms.map Msg.id).foldl max m.id, rfl, ?_, ?_, ?_⟩
    · simp [countEmits, List.countP_append, isEmit, countEmits_emitTrace,
        emitTrace, List.countP_map]
    · rcases foldl_max_mem (ms.map Msg.id) m.id with hm | hm
      · rw [List.map_cons, hm]; exact List.mem_cons_self _ _
      · rw [List.map_cons]; exact List.mem_cons_of_mem _ hm
    · intro i hi
      rw [List.map_cons] at hi
      rcases List.mem_cons.mp hi with hi | hi
      · subst hi; exact le_foldl_max (ms.map Msg.id) m.id
      · exact foldl_max_ub (ms.map Msg.id) m.id i hi

/-- C1 witness: a concrete three-message batch with ids 3, 7, 5. -/
theorem fetch_and_fire_witness :
    ∃ mx : Int,
      fetch_and_fire "user@example.com" "dev" [⟨3, []⟩, ⟨7, []⟩, ⟨5, []⟩] =
        Except.ok (emitTrace "user@example.com" "dev" [⟨3, []⟩, ⟨7, []⟩, ⟨5, []⟩]
          ++ [DeliveryAct.ack mx])
      ∧ countEmits (emitTrace "user@example.com" "dev" [⟨3, []⟩, ⟨7, []⟩, ⟨5, []⟩]
          ++ [DeliveryAct.ack mx])
          = ([⟨3, []⟩, ⟨7, []⟩, ⟨5, []⟩] : List Msg).length
      ∧ mx ∈ ([⟨3, []⟩, ⟨7, []⟩, ⟨5, []⟩] : List Msg).map Msg.id
      ∧ ∀ i ∈ ([⟨3, []⟩, ⟨7, []⟩, ⟨5, []⟩] : List Msg).map Msg.id, i ≤ mx :=
  fetch_and_fire_spec "user@example.com" "dev" [⟨3, []⟩, ⟨7, []⟩, ⟨5, []⟩]
    (by decide)

/-- C2: the reconnect delay starts at `INITIAL_RECONNECT_DELAY`; a successful
login handshake resets the observed sleep to the initial value; after each
iteration the delay is the doubled previous sleep capped at
`MAX_RECONNECT_DELAY`; every observed sleep and every held delay stays within
`[INITIAL_RECONNECT_DELAY, MAX_RECONNECT_DELAY]`; and across consecutive
failed reconnects the sleeps are non-decreasing. -/
theorem reconnect_backoff_spec :
    (∀ d, (listen_iteration d ConnOutcome.loggedInThenDropped).1
        = INITIAL_RECONNECT_DELAY)
    ∧ (∀ d o, (listen_iteration d o).2
        = min ((listen_iteration d o).1 * RECONNECT_FACTOR) MAX_RECONNECT_DELAY)
    ∧ (∀ os d, INITIAL_RECONNECT_DELAY ≤ d → d ≤ MAX_RECONNECT_DELAY →
        (∀ s ∈ listen_run d os,
          INITIAL_RECONNECT_DELAY ≤ s ∧ s ≤ MAX_RECONNECT_DELAY)
        ∧ INITIAL_RECONNECT_DELAY ≤ listen_final d os
        ∧ listen_final d os ≤ MAX_RECONNECT_DELAY)
    ∧ (∀ n d, d ≤ MAX_RECONNECT_DELAY →
        List.Chain' (fun a b => a ≤ b)
          (listen_run d (List.replicate n ConnOutcome.connectFailed))) := by
  refine ⟨fun d => rfl, fun d o => by cases o <;> rfl, ?_, listen_run_failures_monotone⟩
  intro os d h1 h2
  exact ⟨listen_run_bounds os d h1 h2, listen_final_bounds os d h1 h2⟩

/-- C2 witness: a concrete run — two failures, a successful login, two more
failures — starting from the configured initial delay. -/
theorem reconnect_backoff_witness :
    ((∀ s ∈ listen_run INITIAL_RECONNECT_DELAY
        [ConnOutcome.connectFailed, ConnOutcome.connectFailed,
         ConnOutcome.loggedInThenDropped, ConnOutcome.connectFailed,
         ConnOutcome.connectFailed],
        INITIAL_RECONNECT_DELAY ≤ s ∧ s ≤ MAX_RECONNECT_DELAY)
      ∧ INITIAL_RECONNECT_DELAY ≤ listen_final INITIAL_RECONNECT_DELAY
          [ConnOutcome.connectFailed, ConnOutcome.connectFailed,
           ConnOutcome.loggedInThenDropped, ConnOutcome.connectFailed,
           ConnOutcome.connectFailed]
      ∧ listen_final INITIAL_RECONNECT_DELAY
          [ConnOutcome.connectFailed, ConnOutcome.connectFailed,
           ConnOutcome.loggedInThenDropped, ConnOutcome.connectFailed,
           ConnOutcome.connectFailed] ≤ MAX_RECONNECT_DELAY)
    ∧ List.Chain' (fun a b => a ≤ b)
        (listen_run INITIAL_RECONNECT_DELAY
          (List.replicate 8 ConnOutcome.connectFailed)) :=
  ⟨reconnect_backoff_spec.2.2.1
      [ConnOutcome.connectFailed, ConnOutcome.connectFailed,
       ConnOutcome.loggedInThenDropped, ConnOutcome.connectFailed,
       ConnOutcome.connectFailed]
      INITIAL_RECONNECT_DELAY (by decide) (by decide),
   reconnect_backoff_spec.2.2.2 8 INITIAL_RECONNECT_DELAY (by decide)⟩

/-- C6: `async_validate_credentials` returns a secret only for an HTTP-ok
response whose body has `status = 1` (and then returns exactly that body's
secret); every body with a non-success status, every transport-level
`ClientError`, and every HTTP error status yields `InvalidAuthError` and
never a secret. -/
theorem validate_credentials_spec :
    (∀ h s, async_validate_credentials h = AuthResult.token s →
      ∃ body, h = LoginHttp.response true body
        ∧ body.status = 1 ∧ body.secret = some s)
    ∧ (∀ body s, body.status = 1 → body.secret = some s →
      async_validate_credentials (LoginHttp.response true body) = AuthResult.token s)
    ∧ (∀ ok body, body.status ≠ 1 →
      async_validate_credentials (LoginHttp.response ok body) = AuthResult.invalidAuth)
    ∧ async_validate_credentials LoginHttp.clientError = AuthResult.invalidAuth
    ∧ (∀ body,
      async_validate_credentials (LoginHttp.response false body)
        = AuthResult.invalidAuth) := by
  refine ⟨?_, ?_, ?_, rfl, fun body => rfl⟩
  · intro h s he
    cases h with
    | clientError => exact AuthResult.noConfusion he
    | response ok body =>
      cases ok with
      | false => exact AuthResult.noConfusion he
      | true =>
        by_cases hst : body.status = 1
        · rcases hsec : body.secret with _ | s2
          · simp [async_validate_credentials, hst, hsec] at he
          · simp [async_validate_credentials, hst, hsec] at he
            exact ⟨body, rfl, hst, by rw [hsec, he]⟩
        · simp [async_validate_credentials, hst] at he
  · intro body s hst hsec
    simp [async_validate_credentials, hst, hsec]
  · intro ok body hst
    cases ok with
    | false => rfl
    | true => simp [async_validate_credentials, hst]

/-- C6 witness: a success body returns its secret; a status-0 body is
rejected. -/
theorem validate_credentials_witness :
    async_validate_credentials (LoginHttp.response true ⟨1, some "tok"⟩)
      = AuthResult.token "tok"
    ∧ async_validate_credentials (LoginHttp.response true ⟨0, none⟩)
      = AuthResult.invalidAuth :=
  ⟨validate_credentials_spec.2.1 ⟨1, some "tok"⟩ "tok" rfl rfl,
   validate_credentials_spec.2.2.1 true ⟨0, none⟩ (by decide)⟩

/-- C7: on a non-empty startup backlog, `download_and_discard_old_messages`
emits nothing and issues a single acknowledge whose argument is the maximum
fetched id, which every id of the backlog is below or equal to — the whole
backlog is cleared. -/
theorem download_and_discard_spec (messages : List Msg) (h : messages ≠ []) :
    ∃ mx : Int,
      download_and_discard_old_messages messages = Except.ok [DeliveryAct.ack mx]
      ∧ countEmits [DeliveryAct.ack mx] = 0
      ∧ mx ∈ messages.map Msg.id
      ∧ ∀ i ∈ messages.map Msg.id, i ≤ mx := by
  cases messages with
  | nil => exact absurd rfl h
  | cons m ms =>
    refine ⟨(ms.map Msg.id).foldl max m.id, rfl, rfl, ?_, ?_⟩
    · rcases foldl_max_mem (ms.map Msg.id) m.id with hm | hm
      · rw [List.map_cons, hm]; exact List.mem_cons_self _ _
      · rw [List.map_cons]; exact List.mem_cons_of_mem _ hm
    · intro i hi
      rw [List.map_cons] at hi
      rcases List.mem_cons.mp hi with hi | hi
      · subst hi; exact le_foldl_max (ms.map Msg.id) m.id
      · exact foldl_max_ub (ms.map Msg.id) m.id i hi

/-- C7 witness: a concrete backlog of 5 pending messages with ids 1–5. -/
theorem download_and_discard_witness :
    ∃ mx : Int,
      download_and_discard_old_messages
          [⟨1, []⟩, ⟨2, []⟩, ⟨3, []⟩, ⟨4, []⟩, ⟨5, []⟩]
        = Except.ok [DeliveryAct.ack mx]
      ∧ countEmits [DeliveryAct.ack mx] = 0
      ∧ mx ∈ ([⟨1, []⟩, ⟨2, []⟩, ⟨3, []⟩, ⟨4, []⟩, ⟨5, []⟩] : List Msg).map Msg.id
      ∧ ∀ i ∈ ([⟨1, []⟩, ⟨2, []⟩, ⟨3, []⟩, ⟨4, []⟩, ⟨5, []⟩] : List Msg).map Msg.id,
          i ≤ mx :=
  download_and_discard_spec [⟨1, []⟩, ⟨2, []⟩, ⟨3, []⟩, ⟨4, []⟩, ⟨5, []⟩]
    (by decide)

/-- C8: starting from absent storage, running the identity steps of `start`
twice registers exactly once: the first run registers and persists the id,
the second loads it from the store; and whenever the store reports a cached
(truthy) identifier, the registrar is not invoked at all. -/
theorem start_twice_registers_once (regId1 regId2 : String) (h : regId1 ≠ "") :
    (start_identity regId1 ⟨none, 0, none⟩).regCalls = 1
    ∧ (start_identity regId2 (start_identity regId1 ⟨none, 0, none⟩)).regCalls = 1
    ∧ (start_identity regId2 (start_identity regId1 ⟨none, 0, none⟩)).device_id
        = some regId1
    ∧ (start_identity regId2 (start_identity regId1 ⟨none, 0, none⟩)).storage
        = some regId1
    ∧ (∀ st : StartState, pyFalsy st.storage = false →
        (start_identity regId2 st).regCalls = st.regCalls
        ∧ (start_identity regId2 st).device_id = st.storage) := by
  have hb : (regId1 == "") = false := by
    exact beq_eq_false_iff_ne.mpr h
  have h1 : start_identity regId1 ⟨none, 0, none⟩
      = ⟨some regId1, 1, some regId1⟩ := rfl
  have hf : pyFalsy (some regId1) = false := by simp [pyFalsy, hb]
  refine ⟨rfl, ?_, ?_, ?_, ?_⟩
  · rw [h1]; simp [start_identity, hf]
  · rw [h1]; simp [start_identity, hf]
  · rw [h1]; simp [start_identity, hf]
  · intro st hst
    constructor <;> simp [start_identity, hst]

/-- C8 witness: two concrete runs with provider-assigned id `"devid-123"`. -/
theorem start_twice_registers_once_witness :
    (start_identity "devid-123" ⟨none, 0, none⟩).regCalls = 1
    ∧ (start_identity "devid-456"
        (start_identity "devid-123" ⟨none, 0, none⟩)).regCalls = 1
    ∧ (start_identity "devid-456"
        (start_identity "devid-123" ⟨none, 0, none⟩)).device_id = some "devid-123"
    ∧ (start_identity "devid-456"
        (start_identity "devid-123" ⟨none, 0, none⟩)).storage = some "devid-123"
    ∧ (∀ st : StartState, pyFalsy st.storage = false →
        (start_identity "devid-456" st).regCalls = st.regCalls
        ∧ (start_identity "devid-456" st).device_id = st.storage) :=
  start_twice_registers_once "devid-123" "devid-456" (by decide)

/-- C3 counterexample: on the body `"a=1\nb=2\nnokey\nc= 3 &"` the enriched
mapping's entry for `"c"` is `"3 "` — `strip()` runs before `rstrip("&")`, so
the space before the trailing `&` survives — not `"3"` as the claim states. -/
theorem enrich_example_c_cex :
    dget (_enrich_message_payload "user@example.com" "dev"
        [("message", "a=1\nb=2\nnokey\nc= 3 &")]) "c" = some "3 "
    ∧ dget (_enrich_message_payload "user@example.com" "dev"
        [("message", "a=1\nb=2\nnokey\nc= 3 &")]) "c" ≠ some "3" := by
  decide

/-- C3 (amended): on the body `"a=1\nb=2\nnokey\nc= 3 &"` both enrichment
functions map `"a"` to `"1"`, `"b"` to `"2"`, `"c"` to `"3 "` (whitespace
stripped first, then the trailing `&`, so the inner space survives), and
produce no entry for the `=`-less line `"nokey"`. -/
theorem enrich_example_spec :
    dget (_enrich_message_payload "user@example.com" "dev"
        [("message", "a=1\nb=2\nnokey\nc= 3 &")]) "a" = some "1"
    ∧ dget (_enrich_message_payload "user@example.com" "dev"
        [("message", "a=1\nb=2\nnokey\nc= 3 &")]) "b" = some "2"
    ∧ dget (_enrich_message_payload "user@example.com" "dev"
        [("message", "a=1\nb=2\nnokey\nc= 3 &")]) "c" = some "3 "
    ∧ dget (_enrich_message_payload "user@example.com" "dev"
        [("message", "a=1\nb=2\nnokey\nc= 3 &")]) "nokey" = none
    ∧ dget (unpack_json_payload [("message", "a=1\nb=2\nnokey\nc= 3 &")]) "a" = some "1"
    ∧ dget (unpack_json_payload [("message", "a=1\nb=2\nnokey\nc= 3 &")]) "b" = some "2"
    ∧ dget (unpack_json_payload [("message", "a=1\nb=2\nnokey\nc= 3 &")]) "c" = some "3 "
    ∧ dget (unpack_json_payload [("message", "a=1\nb=2\nnokey\nc= 3 &")]) "nokey" = none := by
  decide

/-- C4: in the integration's `listen`, the reconnect membership test
`msg.data in (b"R", b"E", "A")` names the *str* `"A"`, so the binary frames
`b"R"` and `b"E"` break the read loop and reconnect while the binary frame
`b"A"` matches no branch and is ignored; the legacy listener (which writes
`b"A"`) does reconnect on it. -/
theorem reconnect_frame_dispatch :
    handle_binary_frame (PyData.bytes "R") = FrameAction.reconnect
    ∧ handle_binary_frame (PyData.bytes "E") = FrameAction.reconnect
    ∧ handle_binary_frame (PyData.bytes "A") = FrameAction.ignored
    ∧ handle_binary_frame_legacy (PyData.bytes "A") = FrameAction.reconnect := by
  decide

/-- C5 counterexample: in the integration's `load_cached_device_id` there is
no exception handler, so when the storage substrate raises on a corrupt
record the load raises instead of reporting absent. -/
theorem load_corrupt_raises_cex :
    load_cached_device_id StoreLoadOutcome.corrupt = Except.error ()
    ∧ ∀ v : Option String,
        load_cached_device_id StoreLoadOutcome.corrupt ≠ Except.ok v := by
  refine ⟨rfl, ?_⟩
  intro v h
  exact Except.noConfusion h

/-- C5 (amended): missing storage is reported as absent (`None`) by both
versions and absent storage makes `start` proceed to registration; the legacy
loader also reports a corrupt record as absent, but the integration loader
propagates the substrate's error on a corrupt record. -/
theorem load_cached_device_id_spec :
    load_cached_device_id_legacy StoreLoadOutcome.missing = none
    ∧ load_cached_device_id_legacy StoreLoadOutcome.corrupt = none
    ∧ load_cached_device_id StoreLoadOutcome.missing = Except.ok none
    ∧ load_cached_device_id StoreLoadOutcome.corrupt = Except.error ()
    ∧ (∀ d : Dict, ∃ v, load_cached_device_id (StoreLoadOutcome.stored d) = Except.ok v)
    ∧ (∀ regId : String,
        start_identity regId ⟨none, 0, none⟩ = ⟨some regId, 1, some regId⟩) := by
  refine ⟨rfl, rfl, rfl, rfl, fun d => ⟨_, rfl⟩, fun regId => rfl⟩

/-- C9: enrichment is last-write-wins with embedded tokens applied after the
base record: if the merged base (provider fields plus `user_email` and
`device_name`) already binds `k`, and the body's parsed tokens bind `k` with
final value `v`, the enriched mapping binds `k` to `v`, not to the base
value. -/
theorem enrich_last_write_wins (email device_name : String) (base : Dict)
    (body k v w : String)
    (hbody : dget base "message" = some body)
    (_hbase : dget (dset (dset base "user_email" email) "device_name" device_name) k
        = some w)
    (htok : dget (parseTokens body.data).reverse k = some v) :
    dget (_enrich_message_payload email device_name base) k = some v := by
  have hunf : _enrich_message_payload email device_name base =
      (splitChar '\n' body.data).foldl applyLine
        (dset (dset base "user_email" email) "device_name" device_name) := by
    simp [_enrich_message_payload, hbody, dset]
  rw [hunf, dget_foldl_applyLine]
  have : (splitChar '\n' body.data).filterMap lineToken = parseTokens body.data := rfl
  rw [this, htok]
  rfl

/-- C9 witness: a concrete message whose base field `title` is overridden by
the embedded token `title=New`. -/
theorem enrich_last_write_wins_witness :
    dget (_enrich_message_payload "user@example.com" "dev"
        [("title", "Base"), ("message", "title=New")]) "title" = some "New" :=
  enrich_last_write_wins "user@example.com" "dev"
    [("title", "Base"), ("message", "title=New")] "title=New" "title" "New" "Base"
    (by decide) (by decide) (by decide)

/-- C10: an empty fetched batch is safe: `max` on an empty sequence would
fail, but both `fetch_and_fire` and `download_and_discard_old_messages` guard
it, perform no emit and no acknowledge on an empty batch, and never reach the
error branch on any batch. -/
theorem empty_batch_no_actions :
    pyMax [] = Except.error ()
    ∧ (∀ email device_name,
        fetch_and_fire email device_name [] = Except.ok [])
    ∧ download_and_discard_old_messages [] = Except.ok []
    ∧ (∀ email device_name messages,
        ∃ t, fetch_and_fire email device_name messages = Except.ok t)
    ∧ (∀ messages, ∃ t, download_and_discard_old_messages messages = Except.ok t) := by
  refine ⟨rfl, fun _ _ => rfl, rfl, ?_, ?_⟩
  · intro email device_name messages
    cases messages with
    | nil => exact ⟨[], rfl⟩
    | cons m ms => exact ⟨_, rfl⟩
  · intro messages
    cases messages with
    | nil => exact ⟨[], rfl⟩
    | cons m ms => exact ⟨_, rfl⟩

end PushoverListener
